import Mathlib

/-!
A shallow embedding of the SwarmDrop core transfer engine (Rust sources under
src-tauri) together with proofs about its documented behaviour.  Pure functions
of the source are translated directly; stateful operations are modelled by
explicit state passing.  External primitives coming from third-party crates
(the chacha20poly1305 AEAD, the blake3 hash) are passed in as function
parameters, and their documented contracts appear as explicit hypotheses where
a proof needs them.  Bytes are modelled as `Nat` (values < 256 play no role in
any claim), byte strings as `List Nat`, and machine integers as `Nat`/`Int`
(no quantity involved here can overflow its Rust width on the stated inputs).
-/

namespace SwarmDrop

/-- Error type (error.rs), restricted to the variants produced by the
operations modelled in this development. -/
inductive AppError where
  | Io (msg : String)
  | Transfer (msg : String)
  | Network (msg : String)
  | ExpiredCode
  | InvalidCode
  deriving DecidableEq, Repr

/-- Big-endian byte encoding of a `u32` (Rust `u32::to_be_bytes`). -/
def toBeBytes4 (n : Nat) : List Nat :=
  [n / 2 ^ 24 % 256, n / 2 ^ 16 % 256, n / 2 ^ 8 % 256, n % 256]

/-! ## Transfer crypto (transfer/crypto.rs)

The XChaCha20-Poly1305 cipher instance obtained from a 32-byte key is an
external primitive of the chacha20poly1305 crate.  It is modelled as an
abstract pair of functions (`encrypt` over a 24-byte nonce, `decrypt`
returning `none` on tag-verification failure); the crate's AEAD contract is a
hypothesis of the round-trip theorem.  Likewise `blake3::derive_key` is an
abstract parameter mapping a context string and key material to a 32-byte
hash. -/

/-- An XChaCha20-Poly1305 cipher instance: `encrypt nonce plaintext` and
`decrypt nonce ciphertext` (failing with `none` when the Poly1305 tag does not
verify). -/
structure Aead where
  encrypt : List Nat → List Nat → List Nat
  decrypt : List Nat → List Nat → Option (List Nat)

/-- Nonce derivation (crypto.rs `derive_nonce`): BLAKE3 derive_key over
`session_id (16 bytes) ++ file_id (4 bytes BE) ++ chunk_index (4 bytes BE)`
with the domain-separation context, truncated to 24 bytes.  `blake3DeriveKey`
is the external blake3 primitive. -/
def derive_nonce (blake3DeriveKey : String → List Nat → List Nat)
    (session_id : List Nat) (file_id chunk_index : Nat) : List Nat :=
  let input := session_id ++ toBeBytes4 file_id ++ toBeBytes4 chunk_index
  let hash := blake3DeriveKey "swarmdrop-transfer-nonce-v1" input
  hash.take 24

/-- Transfer encryptor (crypto.rs `TransferCrypto`): wraps a cipher instance. -/
structure TransferCrypto where
  cipher : Aead

/-- Constructor (crypto.rs `TransferCrypto::new`): builds the cipher from the
256-bit key via the external `XChaCha20Poly1305::new` primitive `xchacha`. -/
def TransferCrypto.new (xchacha : List Nat → Aead) (key : List Nat) :
    TransferCrypto :=
  { cipher := xchacha key }

/-- crypto.rs `TransferCrypto::encrypt_chunk`. -/
def TransferCrypto.encrypt_chunk (c : TransferCrypto)
    (blake3DeriveKey : String → List Nat → List Nat)
    (session_id : List Nat) (file_id chunk_index : Nat)
    (plaintext : List Nat) : List Nat :=
  let nonce := derive_nonce blake3DeriveKey session_id file_id chunk_index
  c.cipher.encrypt nonce plaintext

/-- crypto.rs `TransferCrypto::decrypt_chunk`. -/
def TransferCrypto.decrypt_chunk (c : TransferCrypto)
    (blake3DeriveKey : String → List Nat → List Nat)
    (session_id : List Nat) (file_id chunk_index : Nat)
    (ciphertext : List Nat) : Option (List Nat) :=
  let nonce := derive_nonce blake3DeriveKey session_id file_id chunk_index
  c.cipher.decrypt nonce ciphertext

/-! ## Chunking (file_source/mod.rs, file_source/path_ops.rs) -/

/-- file_source/mod.rs `CHUNK_SIZE`. -/
def CHUNK_SIZE : Nat := 256 * 1024

/-- Rust `u64::div_ceil` (overflow-free form used by the standard library). -/
def divCeil (a b : Nat) : Nat := a / b + if a % b = 0 then 0 else 1

/-- file_source/mod.rs `calc_total_chunks`: an empty file still counts as one
chunk, otherwise the ceiling of `file_size / CHUNK_SIZE`. -/
def calc_total_chunks (file_size : Nat) : Nat :=
  if file_size = 0 then 1 else divCeil file_size CHUNK_SIZE

/-- file_source/path_ops.rs `read_chunk_sync`, with the on-disk file modelled
as its byte list `content`.  `read_exact` succeeds exactly when the file holds
at least `offset + read_size` bytes. -/
def read_chunk_sync (content : List Nat) (file_size : Nat)
    (chunk_index : Nat) : Except AppError (List Nat) :=
  if file_size = 0 then
    .ok []
  else
    let offset := chunk_index * CHUNK_SIZE
    if file_size ≤ offset then
      .error (.Transfer "chunk_index 超出范围")
    else
      let remaining := file_size - offset
      let read_size := min remaining CHUNK_SIZE
      if offset + read_size ≤ content.length then
        .ok ((content.drop offset).take read_size)
      else
        .error (.Io "read_exact: unexpected end of file")

/-! ## Application protocol (protocol.rs)

Peer ids are modelled as their base58 string form, session ids (UUIDv4) as
their 16-byte list. -/

/-- Peer identifier, modelled by its string rendering. -/
abbrev PeerId := String

/-- Session / prepared-transfer identifier (UUID, 16 bytes). -/
abbrev Uuid := List Nat

/-- device/mod.rs `OsInfo`. -/
structure OsInfo where
  hostname : String
  os : String
  platform : String
  arch : String
  deriving DecidableEq, Repr

/-- protocol.rs `PairingMethod`. -/
inductive PairingMethod where
  | Code (code : String)
  | Direct
  deriving DecidableEq, Repr

/-- protocol.rs `PairingResponse`. -/
inductive PairingResponse where
  | Success
  | Refused (reason : String)
  deriving DecidableEq, Repr

/-- protocol.rs `FileInfo` (transfer offer metadata). -/
structure FileInfo where
  file_id : Nat
  name : String
  relative_path : String
  size : Nat
  checksum : String
  deriving DecidableEq, Repr

/-- protocol.rs `TransferResponse`. -/
inductive TransferResponse where
  | OfferResult (accepted : Bool) (key : Option (List Nat))
      (reason : Option String)
  | Chunk (session_id : Uuid) (file_id chunk_index : Nat)
      (data : List Nat) (is_last : Bool)
  | Ack (session_id : Uuid)
  deriving DecidableEq, Repr

/-- protocol.rs `AppResponse`. -/
inductive AppResponse where
  | Pairing (r : PairingResponse)
  | Transfer (r : TransferResponse)
  deriving DecidableEq, Repr

/-! ## Progress tracker (transfer/progress.rs)

The tracker is embedded with all fields the claims touch.  The wall-clock
bookkeeping (`started_at`, the speed-sample ring `samples`, the throttle stamp
`last_emit`) measures real time only; it influences no field below and is
omitted. -/

/-- progress.rs `TransferDirection`. -/
inductive TransferDirection where
  | send
  | receive
  | unknown
  deriving DecidableEq, Repr

/-- progress.rs `FileTransferStatus`. -/
inductive FileTransferStatus where
  | pending
  | transferring
  | completed
  deriving DecidableEq, Repr

/-- progress.rs `FileProgressInfo`. -/
structure FileProgressInfo where
  file_id : Nat
  name : String
  size : Nat
  transferred : Nat
  status : FileTransferStatus
  chunks_done : Nat
  total_chunks : Nat
  deriving DecidableEq, Repr

/-- progress.rs `FileDesc`. -/
structure FileDesc where
  file_id : Nat
  name : String
  size : Nat
  deriving DecidableEq, Repr

/-- progress.rs `ProgressTracker` (wall-clock fields omitted, see above). -/
structure ProgressTracker where
  session_id : Uuid
  direction : TransferDirection
  total_bytes : Nat
  transferred_bytes : Nat
  total_files : Nat
  completed_files : Nat
  files : List FileProgressInfo
  deriving DecidableEq, Repr

/-- progress.rs `ProgressTracker::new`. -/
def ProgressTracker.new (session_id : Uuid) (direction : TransferDirection)
    (total_bytes : Nat) (total_files : Nat) : ProgressTracker :=
  { session_id, direction, total_bytes, transferred_bytes := 0,
    total_files, completed_files := 0, files := [] }

/-- progress.rs `ProgressTracker::init_files`. -/
def ProgressTracker.init_files (t : ProgressTracker)
    (file_descs : List FileDesc) : ProgressTracker :=
  { t with
    files := file_descs.map fun f =>
      { file_id := f.file_id, name := f.name, size := f.size,
        transferred := 0, status := .pending, chunks_done := 0,
        total_chunks := calc_total_chunks f.size } }

/-- One pass of progress.rs `ProgressTracker::update_file_chunk` over the file
list: `iter_mut().find(file_id)` mutates the first entry with the given id.
Returns the updated list together with whether that entry just transitioned to
`completed` (which increments `completed_files` on the tracker). -/
def updateFileChunkList (file_id chunk_bytes : Nat) :
    List FileProgressInfo → List FileProgressInfo × Bool
  | [] => ([], false)
  | f :: fs =>
    if f.file_id = file_id then
      let f1 := if f.status = .pending then
          { f with status := FileTransferStatus.transferring } else f
      let f2 := { f1 with transferred := f1.transferred + chunk_bytes,
                          chunks_done := f1.chunks_done + 1 }
      if f2.total_chunks ≤ f2.chunks_done then
        ({ f2 with status := FileTransferStatus.completed,
                   transferred := f2.size } :: fs, true)
      else
        (f2 :: fs, false)
    else
      let r := updateFileChunkList file_id chunk_bytes fs
      (f :: r.1, r.2)

/-- The per-file effect of a completing `update_file_chunk` call (the
`chunks_done >= total_chunks` branch): status `completed`, `transferred`
clamped to the exact size, counter incremented. -/
def completeFile (f : FileProgressInfo) : FileProgressInfo :=
  { f with
    status := FileTransferStatus.completed, transferred := f.size,
    chunks_done := f.chunks_done + 1 }

/-- The per-file effect of a non-completing `update_file_chunk` call:
`pending` becomes `transferring`, bytes and counter advance. -/
def advanceFile (b : Nat) (f : FileProgressInfo) : FileProgressInfo :=
  { f with
    status := if f.status = FileTransferStatus.pending then
      FileTransferStatus.transferring else f.status,
    transferred := f.transferred + b, chunks_done := f.chunks_done + 1 }

/-- progress.rs `ProgressTracker::update_file_chunk`. -/
def ProgressTracker.update_file_chunk (t : ProgressTracker)
    (file_id chunk_bytes : Nat) : ProgressTracker :=
  let r := updateFileChunkList file_id chunk_bytes t.files
  { t with files := r.1,
           completed_files :=
             if r.2 then t.completed_files + 1 else t.completed_files }

/-- progress.rs `ProgressTracker::set_file_transferring` over the file list:
the first entry with the given id goes `pending → transferring`. -/
def setFileTransferringList (file_id : Nat) :
    List FileProgressInfo → List FileProgressInfo
  | [] => []
  | f :: fs =>
    if f.file_id = file_id then
      (if f.status = .pending then
        { f with status := FileTransferStatus.transferring } else f) :: fs
    else
      f :: setFileTransferringList file_id fs

/-- progress.rs `ProgressTracker::set_file_transferring`. -/
def ProgressTracker.set_file_transferring (t : ProgressTracker)
    (file_id : Nat) : ProgressTracker :=
  { t with files := setFileTransferringList file_id t.files }

/-- progress.rs `ProgressTracker::add_bytes` (the speed-sample ring it also
feeds is wall-clock bookkeeping, omitted per the section note). -/
def ProgressTracker.add_bytes (t : ProgressTracker) (bytes : Nat) :
    ProgressTracker :=
  { t with transferred_bytes := t.transferred_bytes + bytes }

/-- Sum of the per-file `transferred` counters. -/
def sumTransferred (t : ProgressTracker) : Nat :=
  (t.files.map FileProgressInfo.transferred).sum

/-! ## Sender session (transfer/sender.rs) -/

/-- transfer/offer.rs `PreparedFile`; the `source` (a path or a platform URI)
is modelled by the byte content it reads as. -/
structure PreparedFile where
  file_id : Nat
  name : String
  relative_path : String
  content : List Nat
  size : Nat
  checksum : String
  deriving DecidableEq, Repr

/-- transfer/sender.rs `SendSession` (the Tauri app handle, the cancellation
token internals and the creation instant are runtime plumbing; the token is
modelled by its observed `cancelled` state). -/
structure SendSession where
  session_id : Uuid
  files : List PreparedFile
  crypto : TransferCrypto
  cancelled : Bool
  progress : ProgressTracker

/-- transfer/sender.rs `SendSession::handle_chunk_request`: check the cancel
token, locate the file, read the chunk (4.B), encrypt (4.A), update progress,
compute `is_last` and return the `Chunk` response.  The updated progress
tracker is returned alongside the result (in the source it lives behind a
mutex on the session). -/
def SendSession.handle_chunk_request (s : SendSession)
    (blake3DeriveKey : String → List Nat → List Nat)
    (file_id chunk_index : Nat) :
    ProgressTracker × Except AppError TransferResponse :=
  if s.cancelled then
    (s.progress, .error (.Transfer "传输已取消"))
  else
    match s.files.find? (fun f => decide (f.file_id = file_id)) with
    | none => (s.progress, .error (.Transfer "文件不存在"))
    | some file =>
      match read_chunk_sync file.content file.size chunk_index with
      | .error e => (s.progress, .error e)
      | .ok plaintext =>
        let data := s.crypto.encrypt_chunk blake3DeriveKey s.session_id
          file_id chunk_index plaintext
        let p := (s.progress.add_bytes plaintext.length).update_file_chunk
          file_id plaintext.length
        let total_chunks := calc_total_chunks file.size
        let is_last := decide (chunk_index + 1 ≥ total_chunks)
        (p, .ok (.Chunk s.session_id file_id chunk_index data is_last))

/-! ## Transfer manager: send_offer response handling (transfer/offer.rs) -/

/-- transfer/offer.rs `StartSendResult`. -/
structure StartSendResult where
  session_id : Uuid
  accepted : Bool
  reason : Option String
  deriving DecidableEq, Repr

/-- A send session as inserted into `send_sessions` by `send_offer`
(`SendSession::new(session_id, selected_prepared, key, app)`), reduced to the
identifying fields relevant to the insertion decision. -/
structure SendSessionEntry where
  session_id : Uuid
  key : List Nat
  deriving DecidableEq, Repr

/-- transfer/offer.rs `TransferManager::send_offer`, the match on the awaited
`OfferResult` response (lines 257–292): on `accepted ∧ key = Some` a send
session is created and inserted (first component); on `accepted ∧ key = None`
only a warning is logged; either way `StartSendResult` carries the `accepted`
flag of the response verbatim.  Any non-`OfferResult` response is an error. -/
def send_offer_handle_response (session_id : Uuid) (response : AppResponse) :
    Option SendSessionEntry × Except AppError StartSendResult :=
  match response with
  | .Transfer (.OfferResult accepted key reason) =>
    if accepted then
      match key with
      | some k =>
        (some { session_id, key := k },
         .ok { session_id, accepted, reason })
      | none =>
        (none, .ok { session_id, accepted, reason })
    else
      (none, .ok { session_id, accepted, reason })
  | _ => (none, .error (.Transfer "意外的响应类型"))

/-! ## Concurrent maps (dashmap) as association lists

`DashMap::insert` replaces any existing binding, `remove` drops it, lookups
find the (unique) binding.  The maps the claims touch are modelled as
association lists with these exact semantics. -/

/-- Lookup in an association list (`DashMap::get`). -/
def listFind {α β : Type} [DecidableEq α] (k : α) (l : List (α × β)) :
    Option β :=
  (l.find? fun p => decide (p.1 = k)).map Prod.snd

/-- Removal from an association list (`DashMap::remove`, all bindings of the
key go away — a DashMap holds at most one). -/
def listErase {α β : Type} [DecidableEq α] (k : α) (l : List (α × β)) :
    List (α × β) :=
  l.filter fun p => decide (p.1 ≠ k)

/-- Insertion into an association list (`DashMap::insert` replaces). -/
def listInsert {α β : Type} [DecidableEq α] (k : α) (v : β)
    (l : List (α × β)) : List (α × β) :=
  (k, v) :: listErase k l

/-! ## Pairing manager (pairing/manager.rs) -/

/-- pairing/code.rs `PairingCodeInfo`. -/
structure PairingCodeInfo where
  code : String
  created_at : Int
  expires_at : Int
  deriving DecidableEq, Repr

/-- pairing/code.rs `PairingCodeInfo::is_expired`, with the wall clock
(`chrono::Utc::now().timestamp()`) passed in explicitly as `now`. -/
def PairingCodeInfo.is_expired (info : PairingCodeInfo) (now : Int) : Bool :=
  info.expires_at < now

/-- device/mod.rs `PairedDeviceInfo`. -/
structure PairedDeviceInfo where
  peer_id : PeerId
  os_info : OsInfo
  paired_at : Int
  deriving DecidableEq, Repr

/-- pairing/manager.rs `PendingInbound`. -/
structure PendingInbound where
  peer_id : PeerId
  os_info : OsInfo
  deriving DecidableEq, Repr

/-- The mutable state of pairing/manager.rs `PairingManager` that
`handle_pairing_request` reads or writes: the active code (a mutex-guarded
singleton), the inbound-request cache and the paired-device map. -/
structure PairingState where
  active_code : Option PairingCodeInfo
  pending_inbound : List (Nat × PendingInbound)
  paired_devices : List (PeerId × PairedDeviceInfo)
  deriving DecidableEq, Repr

deriving instance DecidableEq for Except

/-- Outcome of one `handle_pairing_request` call: the manager state after the
call, the responses handed to `client.send_response` during it (in order), and
the returned value. -/
structure HandlePairingResult where
  state : PairingState
  sent : List PairingResponse
  result : Except AppError (Option PairedDeviceInfo)
  deriving DecidableEq, Repr

/-- pairing/manager.rs `PairingManager::handle_pairing_request` (lines
266–311).  The two wall-clock reads are explicit: `now` for the expiry check
and `now_millis` for `paired_at`.  The transport is assumed to deliver
(`send_response` failures only propagate an error after the response left, and
no claim concerns them).

Control flow translated from the source: only for `method = Code` with
response `Success` is the active code verified (present, equal, unexpired) and
consumed; then the response is sent; then, when accepting, the pending-inbound
entry is consumed to build the `PairedDeviceInfo` which is inserted into the
paired map, while a reject (or a cache miss) merely drops the pending entry. -/
def handle_pairing_request (s : PairingState) (now now_millis : Int)
    (pending_id : Nat) (method : PairingMethod)
    (response : PairingResponse) : HandlePairingResult :=
  let step1 : Except AppError PairingState :=
    match method, response with
    | .Code code, .Success =>
      match s.active_code with
      | none => .error .InvalidCode
      | some info =>
        if info.code ≠ code then .error .InvalidCode
        else if info.is_expired now then .error .ExpiredCode
        else .ok { s with active_code := none }
    | _, _ => .ok s
  match step1 with
  | .error e => { state := s, sent := [], result := .error e }
  | .ok s1 =>
    let accepted := response = PairingResponse.Success
    let sent := [response]
    if accepted then
      match listFind pending_id s1.pending_inbound with
      | some pending =>
        let info : PairedDeviceInfo :=
          { peer_id := pending.peer_id, os_info := pending.os_info,
            paired_at := now_millis }
        { state :=
            { s1 with
              pending_inbound := listErase pending_id s1.pending_inbound,
              paired_devices :=
                listInsert info.peer_id info s1.paired_devices },
          sent, result := .ok (some info) }
      | none =>
        { state :=
            { s1 with
              pending_inbound := listErase pending_id s1.pending_inbound },
          sent, result := .ok none }
    else
      { state :=
          { s1 with
            pending_inbound := listErase pending_id s1.pending_inbound },
        sent, result := .ok none }

/-! ## Event dispatcher, Transfer::Offer arm (network/event_loop.rs) -/

/-- transfer/offer.rs `PendingOffer` as cached by
`TransferManager::cache_inbound_offer`. -/
structure PendingOffer where
  pending_id : Nat
  peer_id : PeerId
  session_id : Uuid
  files : List FileInfo
  total_size : Nat
  deriving DecidableEq, Repr

/-- events payload `TransferFilePayload` (event_loop.rs). -/
structure TransferFilePayload where
  file_id : Nat
  name : String
  relative_path : String
  size : Nat
  is_directory : Bool
  deriving DecidableEq, Repr

/-- events payload `TransferOfferPayload` (event_loop.rs). -/
structure TransferOfferPayload where
  session_id : Uuid
  peer_id : String
  device_name : String
  files : List TransferFilePayload
  total_size : Nat
  deriving DecidableEq, Repr

/-- Observable effects of the `Transfer::Offer` arm of the event loop: the
response handed to `client.send_response` (if any — the paired path defers
the reply until the user accepts or rejects), the offer cached into the
transfer manager (if any), the `transfer-offer` event emitted to the UI (if
any), and whether the notify-if-unfocused path ran. -/
structure OfferArmEffects where
  response : Option TransferResponse
  cached : Option PendingOffer
  emitted : Option TransferOfferPayload
  notified : Bool
  deriving DecidableEq, Repr

/-- network/event_loop.rs, `AppRequest::Transfer(TransferRequest::Offer)` arm
(lines 251–317): an offer from a peer absent from the paired map is answered
immediately with a rejection and nothing else happens; otherwise the display
name is resolved from the paired map (falling back to the first 8 characters
of the peer id string), the offer is cached, `transfer-offer` is emitted, and
the unfocused-notification path runs. -/
def handle_transfer_offer (paired : List (PeerId × PairedDeviceInfo))
    (peer_id : PeerId) (pending_id : Nat) (session_id : Uuid)
    (files : List FileInfo) (total_size : Nat) : OfferArmEffects :=
  if (listFind peer_id paired).isNone then
    { response := some (.OfferResult false none (some "未配对设备")),
      cached := none, emitted := none, notified := false }
  else
    let device_name :=
      match (paired.map Prod.snd).find?
          (fun d => decide (d.peer_id = peer_id)) with
      | some d => d.os_info.hostname
      | none => peer_id.take 8
    { response := none,
      cached := some { pending_id, peer_id, session_id, files, total_size },
      emitted := some
        { session_id, peer_id, device_name,
          files := files.map fun f =>
            { file_id := f.file_id, name := f.name,
              relative_path := f.relative_path, size := f.size,
              is_directory := false },
          total_size },
      notified := true }

/-! ## Part-file finalize (file_sink/path_ops.rs)

Only two paths take part in `verify_and_finalize`: the `.part` path and the
final path of the `PartFile` (created by `create_part_file`, which never
creates the final path).  The relevant file-system state is therefore the
optional byte content at each of the two paths.  BLAKE3 hex hashing
(`blake3::Hasher` + `to_hex`) is the external primitive `blake3Hex`. -/

/-- File-system state seen by finalize: content at the `.part` path and at the
final path, `none` when the path does not exist. -/
structure SinkFs where
  part : Option (List Nat)
  final : Option (List Nat)
  deriving DecidableEq, Repr

/-- file_sink/path_ops.rs `verify_checksum_sync`: open the part file, stream
it through BLAKE3 and compare the hex digest with `expected_hex`
(case-sensitively, plain string equality). -/
def verify_checksum_sync (blake3Hex : List Nat → String)
    (content : List Nat) (expected_hex : String) : Bool :=
  blake3Hex content = expected_hex

/-- file_sink/path_ops.rs `verify_and_finalize` (lines 41–71): hash the part
file and compare with `expected_checksum`; on mismatch delete the part file
and fail; on match rename part → final.  Returns the state of the two paths
after the call together with the result. -/
def verify_and_finalize (blake3Hex : List Nat → String) (fs : SinkFs)
    (expected_checksum : String) : SinkFs × Except AppError Unit :=
  match fs.part with
  | none => (fs, .error (.Io "open: no such file"))
  | some bytes =>
    if verify_checksum_sync blake3Hex bytes expected_checksum then
      ({ part := none, final := some bytes }, .ok ())
    else
      ({ fs with part := none }, .error (.Transfer "文件校验失败"))

/-! ## Receiver chunk pull with retry (transfer/receiver.rs) -/

/-- transfer/receiver.rs `MAX_CHUNK_RETRIES`. -/
def MAX_CHUNK_RETRIES : Nat := 3

/-- transfer/receiver.rs `RETRY_DELAY_BASE_MS`. -/
def RETRY_DELAY_BASE_MS : Nat := 500

/-- What one `ChunkRequest` round trip produced: a `Chunk` response, an
unexpected response shape, or a transport error. -/
inductive AttemptOutcome where
  | chunk (data : List Nat)
  | unexpected
  | failed
  deriving DecidableEq, Repr

/-- The error `pull_single_chunk` stores as `last_error` for a failed
attempt. -/
def attemptError : AttemptOutcome → AppError
  | .chunk _ => .Transfer "分块重试耗尽"
  | .unexpected => .Transfer "意外的响应类型"
  | .failed => .Transfer "ChunkRequest 失败"

/-- Trace of the observable scheduling of one `pull_single_chunk` call: the
backoff sleeps performed (ms, in order) and the number of `ChunkRequest`
frames issued. -/
structure PullTrace where
  sleeps : List Nat
  requests : Nat
  deriving DecidableEq, Repr

/-- Loop body of transfer/receiver.rs `pull_single_chunk` (lines 337–419),
`for attempt in 0..MAX_CHUNK_RETRIES`.  `cancelled attempt` is the state of
the session's cancel token read at the top of that iteration; `outcome
attempt` is the network result of that iteration's `ChunkRequest`; `decrypt`
is the session cipher at the derived nonce (a `none` decryption result aborts
the pull immediately — the `?` operator — without further retries).  A
successful attempt writes the plaintext at `chunk_index · CHUNK_SIZE` (the
positioned write is assumed to succeed; its failure aborts like a decrypt
failure and no claim concerns it) and returns the plaintext length. -/
def pullLoop (cancelled : Nat → Bool) (outcome : Nat → AttemptOutcome)
    (decrypt : List Nat → Option (List Nat)) :
    Nat → Nat → Option AppError → PullTrace →
    PullTrace × Except AppError Nat
  | 0, _, lastError, tr =>
    (tr, .error (lastError.getD (.Transfer "分块重试耗尽")))
  | fuel + 1, attempt, _lastError, tr =>
    if cancelled attempt then
      (tr, .error (.Transfer "传输已取消"))
    else
      let tr1 :=
        if 0 < attempt then
          let delay_ms := RETRY_DELAY_BASE_MS * 2 ^ (attempt - 1)
          { tr with sleeps := tr.sleeps ++ [min delay_ms 2000] }
        else tr
      let tr2 := { tr1 with requests := tr1.requests + 1 }
      match outcome attempt with
      | .chunk data =>
        match decrypt data with
        | none => (tr2, .error (.Transfer "解密失败"))
        | some plaintext => (tr2, .ok plaintext.length)
      | .unexpected =>
        pullLoop cancelled outcome decrypt fuel (attempt + 1)
          (some (attemptError .unexpected)) tr2
      | .failed =>
        pullLoop cancelled outcome decrypt fuel (attempt + 1)
          (some (attemptError .failed)) tr2

/-- transfer/receiver.rs `ReceiveSession::pull_single_chunk`: run the retry
loop from attempt 0 with no recorded error. -/
def pull_single_chunk (cancelled : Nat → Bool)
    (outcome : Nat → AttemptOutcome)
    (decrypt : List Nat → Option (List Nat)) :
    PullTrace × Except AppError Nat :=
  pullLoop cancelled outcome decrypt MAX_CHUNK_RETRIES 0 none
    { sleeps := [], requests := 0 }

/-! ## Progress call discipline of the sessions

The sessions drive the tracker in a fixed pattern: each served chunk performs
`add_bytes b` immediately followed by `update_file_chunk file_id b`
(sender.rs `handle_chunk_request`), and `set_file_transferring` may run at
any point.  `TrackerOp` names these composite steps; `chunkStepOk` states
when a chunk step is well-formed for the current tracker state — the file
exists, has chunks left, and a completing chunk brings its byte total to
exactly its size (true of the real chunking, where the per-file updates are
the chunk lengths `min (size − i·CHUNK_SIZE) CHUNK_SIZE`). -/

/-- A tracker operation as performed by the sessions. -/
inductive TrackerOp where
  | chunk (file_id bytes : Nat)
  | markTransferring (file_id : Nat)
  deriving DecidableEq, Repr

/-- Apply one session-side tracker operation. -/
def applyOp (t : ProgressTracker) : TrackerOp → ProgressTracker
  | .chunk id b => (t.add_bytes b).update_file_chunk id b
  | .markTransferring id => t.set_file_transferring id

/-- Well-formedness of one operation against the current tracker state (see
the section comment). -/
def chunkStepOk (t : ProgressTracker) : TrackerOp → Bool
  | .chunk id b =>
    match t.files.find? (fun f => decide (f.file_id = id)) with
    | some f =>
      decide (f.chunks_done < f.total_chunks) &&
        (!decide (f.chunks_done + 1 = f.total_chunks) ||
          decide (f.transferred + b = f.size))
    | none => false
  | .markTransferring _ => true

/-- Well-formedness of a whole operation sequence, step by step. -/
def validSeq (t : ProgressTracker) : List TrackerOp → Bool
  | [] => true
  | op :: ops => chunkStepOk t op && validSeq (applyOp t op) ops

/-- Per-file tracker invariant: chunk counter bounded, at least one chunk,
and `completed` exactly at the last chunk. -/
def FileInv (f : FileProgressInfo) : Prop :=
  f.chunks_done ≤ f.total_chunks ∧ 1 ≤ f.total_chunks ∧
    (f.status = .completed ↔ f.chunks_done = f.total_chunks)

/-- Tracker invariant: the aggregate byte counter is the sum of the per-file
counters, and every file satisfies `FileInv`. -/
def TrackerInv (t : ProgressTracker) : Prop :=
  t.transferred_bytes = sumTransferred t ∧ ∀ f ∈ t.files, FileInv f

/-! ## Theorems -/

/-- C1: AEAD round-trip — for every 32-byte key, session id, file id, chunk
index and plaintext, decrypting the result of `encrypt_chunk` with the same
key, session id, file id and chunk index returns exactly the original
plaintext.  `xchacha` and `blake3DeriveKey` are the external crate primitives;
the hypothesis is the chacha20poly1305 crate's AEAD contract (decrypting at
the nonce used for encryption succeeds and inverts).  The repository-side
content is that both directions derive the same nonce deterministically from
`(session_id, file_id, chunk_index)`. -/
theorem aead_chunk_roundtrip (xchacha : List Nat → Aead)
    (blake3DeriveKey : String → List Nat → List Nat)
    (key session_id : List Nat) (file_id chunk_index : Nat)
    (plaintext : List Nat)
    (hcrate : ∀ nonce pt,
      (xchacha key).decrypt nonce ((xchacha key).encrypt nonce pt) = some pt) :
    (TransferCrypto.new xchacha key).decrypt_chunk blake3DeriveKey session_id
        file_id chunk_index
        ((TransferCrypto.new xchacha key).encrypt_chunk blake3DeriveKey
          session_id file_id chunk_index plaintext) = some plaintext := by
  simp only [TransferCrypto.new, TransferCrypto.decrypt_chunk,
    TransferCrypto.encrypt_chunk]
  exact hcrate _ _

/-- Witness for the round-trip theorem: a concrete cipher satisfying the AEAD
contract, a concrete session id, indices and plaintext. -/
theorem aead_chunk_roundtrip_witness :
    (TransferCrypto.new (fun _ => ⟨fun _ p => p, fun _ c => some c⟩)
        (List.replicate 32 7)).decrypt_chunk (fun _ _ => List.replicate 32 0)
      (List.replicate 16 1) 0 0
      ((TransferCrypto.new (fun _ => ⟨fun _ p => p, fun _ c => some c⟩)
          (List.replicate 32 7)).encrypt_chunk (fun _ _ => List.replicate 32 0)
        (List.replicate 16 1) 0 0 [1, 2, 3]) = some [1, 2, 3] :=
  aead_chunk_roundtrip _ _ _ _ 0 0 [1, 2, 3] (fun _ _ => rfl)

/-- C7: read_chunk contract — with the source holding exactly the declared
`file_size` bytes: an empty file yields an empty byte vector for any index
(the source checks `file_size == 0` before the range check, so the empty-file
clause takes precedence); for a non-empty file an offset at or past the end
fails; otherwise the chunk is served with exactly
`min (file_size − offset) CHUNK_SIZE` bytes (trailing chunk short). -/
theorem read_chunk_contract (content : List Nat)
    (file_size chunk_index : Nat) (hlen : content.length = file_size) :
    (file_size = 0 → read_chunk_sync content file_size chunk_index = .ok []) ∧
    (0 < file_size → file_size ≤ chunk_index * CHUNK_SIZE →
      read_chunk_sync content file_size chunk_index =
        .error (.Transfer "chunk_index 超出范围")) ∧
    (0 < file_size → chunk_index * CHUNK_SIZE < file_size →
      ∃ bytes, read_chunk_sync content file_size chunk_index = .ok bytes ∧
        bytes.length =
          min (file_size - chunk_index * CHUNK_SIZE) CHUNK_SIZE) := by
  unfold read_chunk_sync
  refine ⟨fun h0 => by simp [h0], fun hpos hout => ?_, fun hpos hin => ?_⟩
  · rw [if_neg (by omega), if_pos hout]
  · rw [if_neg (by omega), if_neg (by omega), if_pos (by omega)]
    refine ⟨_, rfl, ?_⟩
    simp only [List.length_take, List.length_drop, hlen]
    omega

/-- Witness for the read_chunk contract: a three-byte file, chunk index 1 is
out of range. -/
theorem read_chunk_contract_witness :
    read_chunk_sync [1, 2, 3] 3 1 =
      .error (.Transfer "chunk_index 超出范围") :=
  (read_chunk_contract [1, 2, 3] 3 1 rfl).2.1 (by norm_num)
    (by norm_num [CHUNK_SIZE])

/-- C2: part-file finalize gate — with the part file written (holding
`bytes`) and the final path not yet present (`create_part_file` only ever
creates the `.part` path): when the BLAKE3 hex of the part content equals
`expected_hex`, the call succeeds, the final path exists with the written
content and the part path is gone (renamed); when it differs, the
checksum-mismatch `Transfer` error is returned and both paths are absent
(part deleted, final never created). -/
theorem verify_and_finalize_gate (blake3Hex : List Nat → String)
    (fs : SinkFs) (expected_hex : String) (bytes : List Nat)
    (hpart : fs.part = some bytes) (hfinal : fs.final = none) :
    (blake3Hex bytes = expected_hex →
      verify_and_finalize blake3Hex fs expected_hex =
        ({ part := none, final := some bytes }, .ok ())) ∧
    (blake3Hex bytes ≠ expected_hex →
      verify_and_finalize blake3Hex fs expected_hex =
        ({ part := none, final := none },
         .error (.Transfer "文件校验失败"))) := by
  obtain ⟨p, f⟩ := fs
  obtain rfl : p = some bytes := hpart
  obtain rfl : f = none := hfinal
  unfold verify_and_finalize verify_checksum_sync
  constructor
  · intro heq
    simp [heq]
  · intro hne
    simp [hne]

/-- Witness for the finalize gate: both branches at a concrete hash function
and a one-byte part file. -/
theorem verify_and_finalize_gate_witness :
    verify_and_finalize (fun _ => "h") { part := some [1], final := none }
        "h" = ({ part := none, final := some [1] }, .ok ()) ∧
    verify_and_finalize (fun _ => "h") { part := some [1], final := none }
        "x" = ({ part := none, final := none },
               .error (.Transfer "文件校验失败")) :=
  ⟨(verify_and_finalize_gate (fun _ => "h")
      { part := some [1], final := none } "h" [1] rfl rfl).1 rfl,
   (verify_and_finalize_gate (fun _ => "h")
      { part := some [1], final := none } "x" [1] rfl rfl).2 (by decide)⟩

/-- The source's `div_ceil` is ceiling division. -/
theorem divCeil_eq_ceilDiv (n : Nat) :
    divCeil n CHUNK_SIZE = n ⌈/⌉ CHUNK_SIZE := by
  rw [Nat.ceilDiv_eq_add_pred_div]
  unfold divCeil CHUNK_SIZE
  split <;> omega

/-- C8: chunk count law — `total_chunks 0 = 1` and for positive `n` it is the
ceiling of `n / 262144`; and a chunk served by the sender carries
`is_last = (chunk_index + 1 ≥ total_chunks size)`.  The second part pins the
full successful response of `handle_chunk_request` (session not cancelled,
file found, chunk readable): the session id, indices, the encrypted data and
the `is_last` flag computed from `calc_total_chunks`. -/
theorem chunk_count_law :
    (calc_total_chunks 0 = 1 ∧
      ∀ n, 0 < n → calc_total_chunks n = n ⌈/⌉ 262144) ∧
    (∀ (s : SendSession) (blake3DeriveKey : String → List Nat → List Nat)
        (file_id chunk_index : Nat) (file : PreparedFile)
        (plaintext : List Nat),
      s.cancelled = false →
      s.files.find? (fun f => decide (f.file_id = file_id)) = some file →
      read_chunk_sync file.content file.size chunk_index = .ok plaintext →
      (s.handle_chunk_request blake3DeriveKey file_id chunk_index).2 =
        .ok (.Chunk s.session_id file_id chunk_index
          (s.crypto.encrypt_chunk blake3DeriveKey s.session_id file_id
            chunk_index plaintext)
          (decide (chunk_index + 1 ≥ calc_total_chunks file.size)))) := by
  refine ⟨⟨rfl, fun n hn => ?_⟩, ?_⟩
  · have hc : CHUNK_SIZE = 262144 := by norm_num [CHUNK_SIZE]
    rw [← hc, calc_total_chunks, if_neg (by omega), divCeil_eq_ceilDiv]
  · intro s b3 fid ci file pt hc hfind hread
    simp [SendSession.handle_chunk_request, hc, hfind, hread]

/-- Witness for the chunk count law: a one-byte file served at chunk 0 by a
concrete session (identity cipher); the chunk comes back flagged last. -/
theorem chunk_count_law_witness :
    ((⟨[], [⟨0, "a", "a", [5], 1, ""⟩], ⟨⟨fun _ p => p, fun _ c => some c⟩⟩,
        false, ProgressTracker.new [] .send 1 1⟩ :
          SendSession).handle_chunk_request (fun _ _ => []) 0 0).2 =
      .ok (.Chunk [] 0 0 [5] true) := by
  have h := chunk_count_law.2
    ⟨[], [⟨0, "a", "a", [5], 1, ""⟩], ⟨⟨fun _ p => p, fun _ c => some c⟩⟩,
      false, ProgressTracker.new [] .send 1 1⟩
    (fun _ _ => []) 0 0 ⟨0, "a", "a", [5], 1, ""⟩ [5] rfl rfl (by decide)
  exact h.trans (by decide)

/-- C5 counterexample: for the awaited response
`OfferResult{accepted:true, key:None}` the code does log, skips session
creation — but the `StartSendResult` handed to the caller carries
`accepted = true`, not the rejection the claim asserts. -/
theorem send_offer_key_none_cex :
    (send_offer_handle_response [0]
        (.Transfer (.OfferResult true none none))).1 = none ∧
    ((send_offer_handle_response [0]
        (.Transfer (.OfferResult true none none))).2).map
      StartSendResult.accepted = .ok true ∧
    ((send_offer_handle_response [0]
        (.Transfer (.OfferResult true none none))).2).map
      StartSendResult.accepted ≠ .ok false := by
  decide

/-- C5 (amended): on `{accepted:true, key:Some k}` a send session keyed by
`k` is created and inserted and `StartSendResult{accepted:true}` is returned;
on `{accepted:true, key:None}` no session is created (the anomaly is only
logged) and `StartSendResult{accepted:true, reason}` — not a rejection — is
returned; on `{accepted:false}` no session is created and
`StartSendResult{session_id, accepted:false, reason}` is returned. -/
theorem send_offer_response_handling (session_id : Uuid) (k : List Nat)
    (k2 : Option (List Nat)) (reason : Option String) :
    send_offer_handle_response session_id
        (.Transfer (.OfferResult true (some k) reason)) =
      (some { session_id, key := k },
        .ok { session_id, accepted := true, reason }) ∧
    send_offer_handle_response session_id
        (.Transfer (.OfferResult true none reason)) =
      (none, .ok { session_id, accepted := true, reason }) ∧
    send_offer_handle_response session_id
        (.Transfer (.OfferResult false k2 reason)) =
      (none, .ok { session_id, accepted := false, reason }) :=
  ⟨rfl, rfl, rfl⟩

/-- C4 counterexample: the automatic rejection of an offer from an unpaired
peer carries the reason string "未配对设备", not the literal "not-paired"
the claim states. -/
theorem offer_unpaired_reason_cex :
    (handle_transfer_offer [] "12D3KooWPeer" 1 [0] [] 0).response =
      some (.OfferResult false none (some "未配对设备")) ∧
    (handle_transfer_offer [] "12D3KooWPeer" 1 [0] [] 0).response ≠
      some (.OfferResult false none (some "not-paired")) := by
  decide

/-- C4 (amended): an inbound `Transfer::Offer` whose sender is not in the
paired map is immediately answered
`OfferResult{accepted:false, key:None, reason:Some "未配对设备"}` — the
not-paired rejection — with no offer cached, no `transfer-offer` event
emitted, and no notification (no user interaction). -/
theorem offer_unpaired_auto_reject
    (paired : List (PeerId × PairedDeviceInfo)) (peer_id : PeerId)
    (pending_id : Nat) (session_id : Uuid) (files : List FileInfo)
    (total_size : Nat) (hunpaired : listFind peer_id paired = none) :
    handle_transfer_offer paired peer_id pending_id session_id files
        total_size =
      { response := some (.OfferResult false none (some "未配对设备")),
        cached := none, emitted := none, notified := false } := by
  unfold handle_transfer_offer
  rw [hunpaired]
  rfl

/-- Witness for the unpaired-offer rejection: empty paired map, concrete
offer. -/
theorem offer_unpaired_auto_reject_witness :
    handle_transfer_offer [] "12D3KooWAbcdefgh" 7 [1] [] 42 =
      { response := some (.OfferResult false none (some "未配对设备")),
        cached := none, emitted := none, notified := false } :=
  offer_unpaired_auto_reject [] "12D3KooWAbcdefgh" 7 [1] [] 42 rfl

/-- C6 counterexample: a pull whose three attempts all fail sleeps
500 ms and 1000 ms — two backoffs, not the three (500/1000/2000 ms) the
claim lists; with `MAX_CHUNK_RETRIES = 3` attempts there are only two
retries and the 2000 ms cap is never reached. -/
theorem chunk_retry_backoff_cex :
    (pull_single_chunk (fun _ => false) (fun _ => .failed)
        (fun _ => none)).1.sleeps = [500, 1000] ∧
    (pull_single_chunk (fun _ => false) (fun _ => .failed)
        (fun _ => none)).1.sleeps ≠ [500, 1000, 2000] := by
  decide

/-- C6 (amended): a chunk pull that keeps failing issues exactly three
`ChunkRequest` attempts, sleeping before each retry with exponential backoff
`500·2^(attempt−1)` ms capped at 2000 ms — i.e. backoffs of 500 and 1000 ms
(the cap is never reached) — and then returns the last error; cancellation
short-circuits the retries before any request is issued. -/
theorem chunk_retry_schedule (cancelled : Nat → Bool)
    (outcome : Nat → AttemptOutcome) (decrypt : List Nat → Option (List Nat))
    (hnc : ∀ k, cancelled k = false)
    (hfail : ∀ k, outcome k = .unexpected ∨ outcome k = .failed) :
    ((pull_single_chunk cancelled outcome decrypt).1 =
        { sleeps := [500, 1000], requests := 3 } ∧
      (pull_single_chunk cancelled outcome decrypt).2 =
        .error (attemptError (outcome 2))) ∧
    (∀ c2 : Nat → Bool, c2 0 = true →
      pull_single_chunk c2 outcome decrypt =
        ({ sleeps := [], requests := 0 },
          .error (.Transfer "传输已取消"))) := by
  constructor
  · have e0 := hfail 0
    have e1 := hfail 1
    have e2 := hfail 2
    unfold pull_single_chunk MAX_CHUNK_RETRIES
    rcases e0 with h0 | h0 <;> rcases e1 with h1 | h1 <;>
      rcases e2 with h2 | h2 <;>
      simp [pullLoop, hnc, h0, h1, h2, attemptError, RETRY_DELAY_BASE_MS]
  · intro c2 hc2
    unfold pull_single_chunk MAX_CHUNK_RETRIES
    simp [pullLoop, hc2]

/-- Witness for the retry schedule: concrete never-cancelled all-failing
run, and a concrete cancelled-at-entry run. -/
theorem chunk_retry_schedule_witness :
    ((pull_single_chunk (fun _ => false) (fun _ => .failed)
          (fun _ => none)).1 =
        { sleeps := [500, 1000], requests := 3 } ∧
      (pull_single_chunk (fun _ => false) (fun _ => .failed)
          (fun _ => none)).2 =
        .error (attemptError ((fun _ => AttemptOutcome.failed) 2))) ∧
    pull_single_chunk (fun _ => true) (fun _ => .failed) (fun _ => none) =
      ({ sleeps := [], requests := 0 },
        .error (.Transfer "传输已取消")) :=
  ⟨(chunk_retry_schedule (fun _ => false) (fun _ => .failed) (fun _ => none)
      (fun _ => rfl) (fun _ => Or.inr rfl)).1,
    (chunk_retry_schedule (fun _ => false) (fun _ => .failed)
      (fun _ => none) (fun _ => rfl) (fun _ => Or.inr rfl)).2
      (fun _ => true) rfl⟩

/-- Accepting a `Code` pairing with no active code fails `InvalidCode`
before anything is sent or mutated. -/
theorem handle_code_success_no_active (t : PairingState)
    (now now_millis : Int) (pending_id : Nat) (code : String)
    (h : t.active_code = none) :
    handle_pairing_request t now now_millis pending_id (.Code code)
        .Success =
      { state := t, sent := [], result := .error .InvalidCode } := by
  unfold handle_pairing_request
  rw [h]

/-- Accepting a `Code` pairing with a mismatching active code fails
`InvalidCode` before anything is sent or mutated. -/
theorem handle_code_success_mismatch (t : PairingState)
    (info : PairingCodeInfo) (now now_millis : Int) (pending_id : Nat)
    (code : String) (h : t.active_code = some info)
    (hne : info.code ≠ code) :
    handle_pairing_request t now now_millis pending_id (.Code code)
        .Success =
      { state := t, sent := [], result := .error .InvalidCode } := by
  unfold handle_pairing_request
  simp [h, hne]

/-- Accepting a `Code` pairing with a matching but expired active code fails
`ExpiredCode` before anything is sent or mutated. -/
theorem handle_code_success_expired (t : PairingState)
    (info : PairingCodeInfo) (now now_millis : Int) (pending_id : Nat)
    (code : String) (h : t.active_code = some info)
    (heq : info.code = code) (hexp : info.is_expired now = true) :
    handle_pairing_request t now now_millis pending_id (.Code code)
        .Success =
      { state := t, sent := [], result := .error .ExpiredCode } := by
  unfold handle_pairing_request
  simp [h, heq, hexp]

/-- Accepting a `Code` pairing with a matching unexpired active code
succeeds, sends `Success`, and consumes the code. -/
theorem handle_code_success_consumes (t : PairingState)
    (info : PairingCodeInfo) (now now_millis : Int) (pending_id : Nat)
    (code : String) (h : t.active_code = some info)
    (heq : info.code = code) (hexp : info.is_expired now = false) :
    (handle_pairing_request t now now_millis pending_id (.Code code)
        .Success).result.isOk = true ∧
    (handle_pairing_request t now now_millis pending_id (.Code code)
        .Success).state.active_code = none ∧
    (handle_pairing_request t now now_millis pending_id (.Code code)
        .Success).sent = [PairingResponse.Success] := by
  unfold handle_pairing_request
  simp only [h, heq, hexp]
  cases hfind : listFind pending_id t.pending_inbound <;>
    simp [hfind, Except.isOk, Except.toBool]

/-- C3: pairing code single use — with an active code `info`: a `Refused`
response skips verification entirely (it goes out and the active code stays
untouched even if the received code mismatches or the active code is
expired), so verification happens exactly when the response is `Success`; a
`Success` accept with a mismatching code fails `InvalidCode`; with a matching
but expired code it fails `ExpiredCode`; with a matching unexpired code it
succeeds and consumes the code, so a subsequent `Success` accept with the
same code fails `InvalidCode`. -/
theorem pairing_code_single_use (s : PairingState) (info : PairingCodeInfo)
    (now now_millis now2 now_millis2 : Int) (pending_id pending_id2 : Nat)
    (code : String) (hactive : s.active_code = some info) :
    (∀ reason,
      (handle_pairing_request s now now_millis pending_id (.Code code)
          (.Refused reason)).result = .ok none ∧
      (handle_pairing_request s now now_millis pending_id (.Code code)
          (.Refused reason)).sent = [.Refused reason] ∧
      (handle_pairing_request s now now_millis pending_id (.Code code)
          (.Refused reason)).state.active_code = some info) ∧
    (info.code ≠ code →
      handle_pairing_request s now now_millis pending_id (.Code code)
          .Success =
        { state := s, sent := [], result := .error .InvalidCode }) ∧
    (info.code = code → info.is_expired now = true →
      handle_pairing_request s now now_millis pending_id (.Code code)
          .Success =
        { state := s, sent := [], result := .error .ExpiredCode }) ∧
    (info.code = code → info.is_expired now = false →
      (handle_pairing_request s now now_millis pending_id (.Code code)
          .Success).result.isOk = true ∧
      (handle_pairing_request s now now_millis pending_id (.Code code)
          .Success).state.active_code = none ∧
      (handle_pairing_request
          (handle_pairing_request s now now_millis pending_id (.Code code)
            .Success).state now2 now_millis2 pending_id2 (.Code code)
          .Success).result = .error .InvalidCode) := by
  refine ⟨fun reason => ⟨rfl, rfl, hactive⟩,
    fun hne =>
      handle_code_success_mismatch s info now now_millis pending_id code
        hactive hne,
    fun heq hexp =>
      handle_code_success_expired s info now now_millis pending_id code
        hactive heq hexp,
    fun heq hexp => ?_⟩
  obtain ⟨hok, hnone, -⟩ :=
    handle_code_success_consumes s info now now_millis pending_id code
      hactive heq hexp
  refine ⟨hok, hnone, ?_⟩
  have h2 := handle_code_success_no_active
    (handle_pairing_request s now now_millis pending_id (.Code code)
      .Success).state now2 now_millis2 pending_id2 code hnone
  rw [h2]

/-- Witness for pairing single use: concrete state with active code
"123456" (unexpired at `now = 0`), accepted twice. -/
theorem pairing_code_single_use_witness :
    (handle_pairing_request ⟨some ⟨"123456", 0, 100⟩, [], []⟩ 0 0 1
        (.Code "123456") .Success).result.isOk = true ∧
    (handle_pairing_request ⟨some ⟨"123456", 0, 100⟩, [], []⟩ 0 0 1
        (.Code "123456") .Success).state.active_code = none ∧
    (handle_pairing_request
        (handle_pairing_request ⟨some ⟨"123456", 0, 100⟩, [], []⟩ 0 0 1
          (.Code "123456") .Success).state 0 0 2 (.Code "123456")
        .Success).result = .error .InvalidCode :=
  (pairing_code_single_use ⟨some ⟨"123456", 0, 100⟩, [], []⟩
    ⟨"123456", 0, 100⟩ 0 0 0 0 1 2 "123456" rfl).2.2.2 rfl (by decide)

/-- C10: pairing verification is atomic — for a `Success` accept of a `Code`
request where verification fails (no active code, mismatching code, or
expired code), the call returns the error with no response sent and the
manager state — active code, pending-inbound cache and paired-device map —
exactly as before the call. -/
theorem pairing_verify_failure_atomic (s : PairingState)
    (info : PairingCodeInfo) (now now_millis : Int) (pending_id : Nat)
    (code : String) :
    (s.active_code = none →
      handle_pairing_request s now now_millis pending_id (.Code code)
          .Success =
        { state := s, sent := [], result := .error .InvalidCode }) ∧
    (s.active_code = some info → info.code ≠ code →
      handle_pairing_request s now now_millis pending_id (.Code code)
          .Success =
        { state := s, sent := [], result := .error .InvalidCode }) ∧
    (s.active_code = some info → info.code = code →
        info.is_expired now = true →
      handle_pairing_request s now now_millis pending_id (.Code code)
          .Success =
        { state := s, sent := [], result := .error .ExpiredCode }) :=
  ⟨fun h => handle_code_success_no_active s now now_millis pending_id code h,
   fun h hne =>
     handle_code_success_mismatch s info now now_millis pending_id code h hne,
   fun h heq hexp =>
     handle_code_success_expired s info now now_millis pending_id code h heq
       hexp⟩

/-- Witness for verification atomicity: a pending inbound entry and a paired
device survive an expired-code accept untouched. -/
theorem pairing_verify_failure_atomic_witness :
    handle_pairing_request
        ⟨some ⟨"123456", 0, 100⟩, [(5, ⟨"peerA", ⟨"h", "o", "p", "a"⟩⟩)],
          [("peerB", ⟨"peerB", ⟨"h", "o", "p", "a"⟩, 3⟩)]⟩ 200 0 5
        (.Code "123456") .Success =
      { state := ⟨some ⟨"123456", 0, 100⟩,
          [(5, ⟨"peerA", ⟨"h", "o", "p", "a"⟩⟩)],
          [("peerB", ⟨"peerB", ⟨"h", "o", "p", "a"⟩, 3⟩)]⟩,
        sent := [], result := .error .ExpiredCode } :=
  (pairing_verify_failure_atomic
    ⟨some ⟨"123456", 0, 100⟩, [(5, ⟨"peerA", ⟨"h", "o", "p", "a"⟩⟩)],
      [("peerB", ⟨"peerB", ⟨"h", "o", "p", "a"⟩, 3⟩)]⟩
    ⟨"123456", 0, 100⟩ 200 0 5 "123456").2.2 rfl rfl (by decide)

/-- Every file has at least one chunk. -/
theorem calc_total_chunks_pos (n : Nat) : 1 ≤ calc_total_chunks n := by
  unfold calc_total_chunks divCeil CHUNK_SIZE
  split
  · omega
  · split <;> omega

/-- Marking a file transferring keeps its per-file invariant. -/
theorem fileInv_markTransferring (f : FileProgressInfo) (h : FileInv f)
    (hp : f.status = .pending) :
    FileInv { f with status := FileTransferStatus.transferring } := by
  obtain ⟨h1, h2, h3⟩ := h
  refine ⟨h1, h2, ⟨fun hc => by simp at hc, fun hc => ?_⟩⟩
  have : f.status = .completed := h3.mpr hc
  rw [hp] at this
  cases this

/-- The `set_file_transferring` pass does not touch the per-file byte counters. -/
theorem setFileTransferringList_transferred (id : Nat)
    (l : List FileProgressInfo) :
    (setFileTransferringList id l).map FileProgressInfo.transferred =
      l.map FileProgressInfo.transferred := by
  induction l with
  | nil => rfl
  | cons f fs ih =>
    simp only [setFileTransferringList]
    split
    · split <;> simp
    · simp [ih]

/-- The `set_file_transferring` pass keeps every per-file invariant. -/
theorem setFileTransferringList_fileInv (id : Nat)
    (l : List FileProgressInfo) (h : ∀ f ∈ l, FileInv f) :
    ∀ g ∈ setFileTransferringList id l, FileInv g := by
  induction l with
  | nil => intro g hg; simp [setFileTransferringList] at hg
  | cons f fs ih =>
    intro g hg
    simp only [setFileTransferringList] at hg
    split at hg
    · rcases List.mem_cons.1 hg with hg | hg
      · subst hg
        split
        · exact fileInv_markTransferring f
            (h f (List.mem_cons_self f fs)) (by assumption)
        · exact h f (List.mem_cons_self f fs)
      · exact h g (List.mem_cons_of_mem f hg)
    · rcases List.mem_cons.1 hg with hg | hg
      · subst hg
        exact h g (List.mem_cons_self g fs)
      · exact ih (fun x hx => h x (List.mem_cons_of_mem f hx)) g hg

/-- A completing chunk keeps the per-file invariant. -/
theorem fileInv_completeFile (f : FileProgressInfo)
    (hpos : 1 ≤ f.total_chunks)
    (heq : f.chunks_done + 1 = f.total_chunks) :
    FileInv (completeFile f) := by
  refine ⟨?_, ?_, ?_⟩ <;> simp [completeFile] <;> omega

/-- A non-completing chunk keeps the per-file invariant. -/
theorem fileInv_advanceFile (b : Nat) (f : FileProgressInfo)
    (hpos : 1 ≤ f.total_chunks) (hlt : f.chunks_done + 1 < f.total_chunks)
    (hstat : f.status ≠ FileTransferStatus.completed) :
    FileInv (advanceFile b f) := by
  refine ⟨?_, ?_, ?_⟩
  · simp [advanceFile]
    omega
  · simpa [advanceFile] using hpos
  · simp [advanceFile]
    constructor
    · intro hc
      exfalso
      split at hc
      · cases hc
      · exact hstat hc
    · intro hc
      exfalso
      omega

/-- Evaluation of one `update_file_chunk` pass at a matching head. -/
theorem updateFileChunkList_cons_match (id b : Nat) (f : FileProgressInfo)
    (fs : List FileProgressInfo) (hid : f.file_id = id) :
    updateFileChunkList id b (f :: fs) =
      if f.total_chunks ≤ f.chunks_done + 1 then
        (completeFile f :: fs, true)
      else
        (advanceFile b f :: fs, false) := by
  simp only [updateFileChunkList, if_pos hid, completeFile, advanceFile]
  by_cases hpend : f.status = FileTransferStatus.pending <;>
    by_cases hdone : f.total_chunks ≤ f.chunks_done + 1 <;>
    simp [hpend, hdone]

/-- Core invariant step for `update_file_chunk` on the file list: a
well-formed chunk step adds exactly its byte count to the summed per-file
counters and keeps every per-file invariant. -/
theorem updateFileChunkList_inv (id b : Nat) (l : List FileProgressInfo)
    (h : ∀ f ∈ l, FileInv f)
    (hstep : ∀ f, l.find? (fun g => decide (g.file_id = id)) = some f →
      f.chunks_done < f.total_chunks ∧
        (f.chunks_done + 1 = f.total_chunks → f.transferred + b = f.size))
    (hfound :
      (l.find? (fun g => decide (g.file_id = id))).isSome = true) :
    ((updateFileChunkList id b l).1.map
        FileProgressInfo.transferred).sum =
      (l.map FileProgressInfo.transferred).sum + b ∧
    ∀ g ∈ (updateFileChunkList id b l).1, FileInv g := by
  induction l with
  | nil => simp at hfound
  | cons f fs ih =>
    by_cases hid : f.file_id = id
    · have hf : (f :: fs).find? (fun g => decide (g.file_id = id)) =
          some f := List.find?_cons_of_pos _ (by simp [hid])
      obtain ⟨hlt, hcompl⟩ := hstep f hf
      obtain ⟨hc_le, hpos, hiff⟩ := h f (List.mem_cons_self f fs)
      have hstat : f.status ≠ FileTransferStatus.completed := by
        intro hc
        exact absurd (hiff.mp hc) (by omega)
      rw [updateFileChunkList_cons_match id b f fs hid]
      by_cases hdone : f.total_chunks ≤ f.chunks_done + 1
      · have heq : f.chunks_done + 1 = f.total_chunks := by omega
        have hsize := hcompl heq
        rw [if_pos hdone]
        refine ⟨by simp [completeFile]; omega, ?_⟩
        intro g hg
        rcases List.mem_cons.1 hg with hg | hg
        · subst hg
          exact fileInv_completeFile f hpos heq
        · exact h g (List.mem_cons_of_mem f hg)
      · rw [if_neg hdone]
        refine ⟨by simp [advanceFile]; omega, ?_⟩
        intro g hg
        rcases List.mem_cons.1 hg with hg | hg
        · subst hg
          exact fileInv_advanceFile b f hpos (by omega) hstat
        · exact h g (List.mem_cons_of_mem f hg)
    · have hf : (f :: fs).find? (fun g => decide (g.file_id = id)) =
          fs.find? (fun g => decide (g.file_id = id)) :=
        List.find?_cons_of_neg _ (by simp [hid])
      rw [hf] at hstep hfound
      obtain ⟨ihsum, ihinv⟩ :=
        ih (fun x hx => h x (List.mem_cons_of_mem f hx)) hstep hfound
      simp only [updateFileChunkList, if_neg hid]
      refine ⟨by simp [ihsum]; omega, ?_⟩
      intro g hg
      rcases List.mem_cons.1 hg with hg | hg
      · subst hg
        exact h g (List.mem_cons_self g fs)
      · exact ihinv g hg

/-- One well-formed session operation preserves the tracker invariant. -/
theorem trackerInv_applyOp (t : ProgressTracker) (op : TrackerOp)
    (h : TrackerInv t) (hok : chunkStepOk t op = true) :
    TrackerInv (applyOp t op) := by
  obtain ⟨hsum, hfiles⟩ := h
  cases op with
  | chunk id b =>
    simp only [chunkStepOk] at hok
    simp only [applyOp]
    cases hfind : t.files.find? (fun f => decide (f.file_id = id)) with
    | none =>
      rw [hfind] at hok
      cases hok
    | some f =>
      rw [hfind] at hok
      simp only [Bool.and_eq_true, Bool.or_eq_true, Bool.not_eq_true',
        decide_eq_true_eq, decide_eq_false_iff_not] at hok
      obtain ⟨hlt, hor⟩ := hok
      have hstep : ∀ g,
          t.files.find? (fun x => decide (x.file_id = id)) = some g →
          g.chunks_done < g.total_chunks ∧
            (g.chunks_done + 1 = g.total_chunks →
              g.transferred + b = g.size) := by
        intro g hg
        rw [hfind] at hg
        cases hg
        exact ⟨hlt, fun he => hor.resolve_left (fun hne => hne he)⟩
      obtain ⟨lsum, linv⟩ := updateFileChunkList_inv id b t.files hfiles
        hstep (by rw [hfind]; rfl)
      constructor
      · simp only [ProgressTracker.update_file_chunk,
          ProgressTracker.add_bytes, sumTransferred]
        rw [lsum]
        unfold sumTransferred at hsum
        omega
      · intro g hg
        simp only [ProgressTracker.update_file_chunk,
          ProgressTracker.add_bytes] at hg
        exact linv g hg
  | markTransferring id =>
    simp only [applyOp]
    constructor
    · simp only [ProgressTracker.set_file_transferring, sumTransferred]
      rw [setFileTransferringList_transferred]
      exact hsum
    · intro g hg
      simp only [ProgressTracker.set_file_transferring] at hg
      exact setFileTransferringList_fileInv id t.files hfiles g hg

/-- The invariant holds right after `init_files`. -/
theorem trackerInv_init (sid : Uuid) (dir : TransferDirection)
    (tb tf : Nat) (descs : List FileDesc) :
    TrackerInv ((ProgressTracker.new sid dir tb tf).init_files descs) := by
  constructor
  · unfold ProgressTracker.new ProgressTracker.init_files sumTransferred
    simp only [List.map_map]
    symm
    apply List.sum_eq_zero
    intro x hx
    simp only [List.mem_map] at hx
    obtain ⟨d, -, rfl⟩ := hx
    rfl
  · intro f hf
    unfold ProgressTracker.new ProgressTracker.init_files at hf
    simp only [List.mem_map] at hf
    obtain ⟨d, -, rfl⟩ := hf
    have hpos := calc_total_chunks_pos d.size
    unfold FileInv
    dsimp only
    refine ⟨Nat.zero_le _, hpos, ?_⟩
    constructor
    · intro hc
      cases hc
    · intro hc
      exact absurd hc (by omega)

/-- The invariant is preserved along any well-formed operation sequence. -/
theorem trackerInv_fold (t : ProgressTracker) (ops : List TrackerOp)
    (h : TrackerInv t) (hv : validSeq t ops = true) :
    TrackerInv (ops.foldl applyOp t) := by
  induction ops generalizing t with
  | nil => exact h
  | cons op ops ih =>
    rw [validSeq, Bool.and_eq_true] at hv
    rw [List.foldl_cons]
    exact ih (applyOp t op) (trackerInv_applyOp t op h hv.1) hv.2

/-- C9 counterexample: the claim quantifies over every sequence of
`add_bytes` / `update_file_chunk` / `set_file_transferring` calls, but a
lone `add_bytes 5` (no matching `update_file_chunk`) breaks
`transferred_bytes = Σ transferred`, and calling `update_file_chunk` more
often than a file has chunks drives `chunks_done` past `total_chunks`. -/
theorem progress_invariant_cex :
    ¬ ((((ProgressTracker.new [] .send 10 1).init_files
          [⟨0, "a", 10⟩]).add_bytes 5).transferred_bytes =
        sumTransferred (((ProgressTracker.new [] .send 10 1).init_files
          [⟨0, "a", 10⟩]).add_bytes 5)) ∧
    ¬ (∀ f ∈ ((((ProgressTracker.new [] .send 10 1).init_files
          [⟨0, "a", 10⟩]).update_file_chunk 0 10).update_file_chunk 0
            10).files,
        f.chunks_done ≤ f.total_chunks) := by
  constructor
  · decide
  · decide

/-- C9 (amended): after `init_files`, every sequence of session-discipline
operations — each chunk recorded as `add_bytes b` immediately followed by
`update_file_chunk id b` (as the sessions do), each step well-formed for the
current state (`validSeq`: the file exists, still has chunks left, and a
completing chunk brings its bytes to exactly the file size, which holds of
the real chunk lengths), with `set_file_transferring` allowed anywhere —
preserves `transferred_bytes = Σ files[i].transferred`,
`files[i].chunks_done ≤ files[i].total_chunks`, and
`status = completed ↔ chunks_done = total_chunks` for every file. -/
theorem progress_tracker_invariant (sid : Uuid) (dir : TransferDirection)
    (tb tf : Nat) (descs : List FileDesc) (ops : List TrackerOp)
    (hv : validSeq ((ProgressTracker.new sid dir tb tf).init_files descs)
      ops = true) :
    (ops.foldl applyOp ((ProgressTracker.new sid dir tb
        tf).init_files descs)).transferred_bytes =
      sumTransferred (ops.foldl applyOp
        ((ProgressTracker.new sid dir tb tf).init_files descs)) ∧
    (∀ f ∈ (ops.foldl applyOp ((ProgressTracker.new sid dir tb
        tf).init_files descs)).files,
      f.chunks_done ≤ f.total_chunks ∧
        (f.status = .completed ↔ f.chunks_done = f.total_chunks)) := by
  obtain ⟨hsum, hfiles⟩ := trackerInv_fold _ ops
    (trackerInv_init sid dir tb tf descs) hv
  exact ⟨hsum, fun f hf => ⟨(hfiles f hf).1, (hfiles f hf).2.2⟩⟩

/-- Witness for the tracker invariant: one 5-byte file (one chunk), marked
transferring and then completed by a single 5-byte chunk. -/
theorem progress_tracker_invariant_witness :
    ([TrackerOp.markTransferring 0, TrackerOp.chunk 0 5].foldl applyOp
        ((ProgressTracker.new [] .send 5 1).init_files
          [⟨0, "a", 5⟩])).transferred_bytes =
      sumTransferred ([TrackerOp.markTransferring 0,
        TrackerOp.chunk 0 5].foldl applyOp
          ((ProgressTracker.new [] .send 5 1).init_files [⟨0, "a", 5⟩])) ∧
    (∀ f ∈ ([TrackerOp.markTransferring 0, TrackerOp.chunk 0 5].foldl
        applyOp ((ProgressTracker.new [] .send 5 1).init_files
          [⟨0, "a", 5⟩])).files,
      f.chunks_done ≤ f.total_chunks ∧
        (f.status = .completed ↔ f.chunks_done = f.total_chunks)) :=
  progress_tracker_invariant [] .send 5 1 [⟨0, "a", 5⟩]
    [TrackerOp.markTransferring 0, TrackerOp.chunk 0 5] (by decide)

end SwarmDrop
